import Mathlib

/-!
Verification development for the AVITECH publications merge utility
(`scripts/publications/merge.py`).

The Python program is shallowly embedded below.  Python strings are
modelled by Lean `String` / `List Char` (ASCII model of the Unicode
operations `str.lower`, `str.strip`, `\s`, `str.isdigit`), Python floats
by exact rationals `ℚ`, Python dicts of entry fields by association
lists, and the file system seen by `merge_bib_files` by an
`Option (List BibFile)` (`none` = directory missing).  `difflib
.SequenceMatcher(None, a, b).ratio()` from the Python standard library is
embedded concretely (including the `autojunk` popular-element heuristic
and the `isjunk = None` specialisation under which the two junk-extension
loops of `find_longest_match` never fire).
-/

/-! ## Python string primitives -/

/-- Characters matched by Python `\s` (ASCII model). -/
def pyIsSpace (c : Char) : Bool :=
  c = ' ' ∨ c = '\t' ∨ c = '\n' ∨ c = '\r' ∨ c = '\x0b' ∨ c = '\x0c'

/-- ASCII model of Python `str.lower` on a single character. -/
def lowerChar (c : Char) : Char :=
  if 'A' ≤ c ∧ c ≤ 'Z' then Char.ofNat (c.toNat + 32) else c

/-- ASCII model of Python `str.lower`. -/
def pyLowerStr (s : String) : String := ⟨s.data.map lowerChar⟩

/-- Auxiliary for `collapseWs`: `prevSpace` records whether the previous
character belonged to a whitespace run already replaced by a space. -/
def collapseWsAux : Bool → List Char → List Char
  | _, [] => []
  | prevSpace, c :: cs =>
    if pyIsSpace c then
      if prevSpace then collapseWsAux true cs
      else ' ' :: collapseWsAux true cs
    else c :: collapseWsAux false cs

/-- Model of `re.sub(r'\s+', ' ', text)`: every maximal whitespace run
becomes a single space. -/
def collapseWs (l : List Char) : List Char := collapseWsAux false l

/-- Model of Python `str.strip()` (ASCII whitespace model). -/
def stripWs (l : List Char) : List Char :=
  ((l.dropWhile pyIsSpace).reverse.dropWhile pyIsSpace).reverse

def backslashChar : Char := Char.ofNat 92
def lbraceChar : Char := Char.ofNat 123
def rbraceChar : Char := Char.ofNat 125

/-- Embedding of `normalize_text` from `merge.py`: drop backslashes and
braces (`re.sub(r'[\\{}]', '', text)`), collapse whitespace runs to a
single space, lower-case, and strip; the empty string is returned
unchanged. -/
def normalizeText (s : String) : String :=
  if s = "" then ""
  else
    let t1 := s.data.filter
      (fun c => ¬ (c = backslashChar ∨ c = lbraceChar ∨ c = rbraceChar))
    let t2 := collapseWs t1
    ⟨stripWs (t2.map lowerChar)⟩

/-! ## difflib.SequenceMatcher (isjunk = None, autojunk = True) -/

/-- All 0-based indices at which `c` occurs in `b` (ascending), the
content of difflib's `b2j` map before junk processing. -/
def b2jAll (b : List Char) (c : Char) : List Nat :=
  (b.enum.filter (fun p => p.2 = c)).map (·.1)

/-- The `b2j` map after difflib's autojunk handling: with `isjunk = None`
no characters are junk, and for `len(b) ≥ 200` the "popular" characters
(more than `len(b) // 100 + 1` occurrences) are removed from the map. -/
def b2j (b : List Char) (c : Char) : List Nat :=
  let js := b2jAll b c
  if b.length ≥ 200 ∧ js.length > b.length / 100 + 1 then [] else js

/-- Inner loop of `find_longest_match` for one fixed row `i`: walk the
ascending index list `js = b2j[a[i]]`, skipping `j < blo` (`continue`)
and stopping at `j ≥ bhi` (`break`), building the new `j2len` row and
updating the running best `(besti, bestj, bestsize)` on strict
improvement only.  `j2len` functions are total with default value 0,
matching `dict.get(·, 0)`; the `j = 0` guard matches the Python lookup
of key `-1`, which is never present. -/
def flmRow (blo bhi i : Nat) (j2len : Nat → Nat) :
    List Nat → (Nat → Nat) → Nat × Nat × Nat → ((Nat → Nat) × (Nat × Nat × Nat))
  | [], newj2len, best => (newj2len, best)
  | j :: js, newj2len, best =>
    if j < blo then flmRow blo bhi i j2len js newj2len best
    else if bhi ≤ j then (newj2len, best)
    else
      let k := (if j = 0 then 0 else j2len (j - 1)) + 1
      let newj2len2 := fun x => if x = j then k else newj2len x
      let best2 := if k > best.2.2 then (i + 1 - k, j + 1 - k, k) else best
      flmRow blo bhi i j2len js newj2len2 best2

/-- Outer loop of `find_longest_match` over the rows `i ∈ [alo, ahi)`. -/
def flmMain (a b : List Char) (blo bhi : Nat) :
    List Nat → (Nat → Nat) → Nat × Nat × Nat → Nat × Nat × Nat
  | [], _, best => best
  | i :: is_, j2len, best =>
    let js := b2j b (a.getD i (Char.ofNat 0))
    let step := flmRow blo bhi i j2len js (fun _ => 0) best
    flmMain a b blo bhi is_ step.1 step.2

/-- First extension loop of `find_longest_match`: grow the match to the
left over equal non-junk characters (with `isjunk = None` every
character is non-junk).  Fuel-bounded; the source loop decreases
`besti`, so fuel `besti` suffices. -/
def extendLeft (a b : List Char) (alo blo : Nat) :
    Nat → Nat × Nat × Nat → Nat × Nat × Nat
  | 0, best => best
  | fuel + 1, best =>
    let (besti, bestj, bestsize) := best
    if alo < besti ∧ blo < bestj ∧
        a.getD (besti - 1) (Char.ofNat 0) = b.getD (bestj - 1) (Char.ofNat 0) then
      extendLeft a b alo blo fuel (besti - 1, bestj - 1, bestsize + 1)
    else best

/-- Second extension loop of `find_longest_match`: grow the match to the
right over equal non-junk characters. -/
def extendRight (a b : List Char) (ahi bhi : Nat) :
    Nat → Nat × Nat × Nat → Nat × Nat × Nat
  | 0, best => best
  | fuel + 1, best =>
    let (besti, bestj, bestsize) := best
    if besti + bestsize < ahi ∧ bestj + bestsize < bhi ∧
        a.getD (besti + bestsize) (Char.ofNat 0) = b.getD (bestj + bestsize) (Char.ofNat 0) then
      extendRight a b ahi bhi fuel (besti, bestj, bestsize + 1)
    else best

/-- Embedding of `SequenceMatcher.find_longest_match` on the ranges
`a[alo:ahi]`, `b[blo:bhi]`.  The two final junk-adjacent extension loops
of the source are omitted because with `isjunk = None` their guard
`isbjunk(...)` is constantly false. -/
def findLongestMatch (a b : List Char) (alo ahi blo bhi : Nat) : Nat × Nat × Nat :=
  let best := flmMain a b blo bhi (List.range' alo (ahi - alo)) (fun _ => 0) (alo, blo, 0)
  let best2 := extendLeft a b alo blo best.1 best
  extendRight a b ahi bhi ahi best2

/-- Total size of the matching blocks produced by
`SequenceMatcher.get_matching_blocks` on the given ranges, computed by
the same divide-and-conquer decomposition the source's work queue
performs.  Each recursive call strictly shrinks `(ahi - alo) + (bhi -
blo)`, so fuel `a.length + b.length + 1` is never exhausted. -/
def matchesTotal (a b : List Char) : Nat → Nat → Nat → Nat → Nat → Nat
  | 0, _, _, _, _ => 0
  | fuel + 1, alo, ahi, blo, bhi =>
    let m := findLongestMatch a b alo ahi blo bhi
    let i := m.1
    let j := m.2.1
    let k := m.2.2
    if k = 0 then 0
    else k + matchesTotal a b fuel alo i blo j + matchesTotal a b fuel (i + k) ahi (j + k) bhi

/-- Total matched size for the whole strings. -/
def matcherM (a b : List Char) : Nat :=
  matchesTotal a b (a.length + b.length + 1) 0 a.length 0 b.length

/-- Embedding of `SequenceMatcher.ratio()` via `_calculate_ratio`:
`2.0 * matches / (la + lb)`, and `1.0` when both sequences are empty. -/
def matcherScore (a b : List Char) : ℚ :=
  if a.length + b.length = 0 then 1
  else (2 * (matcherM a b : ℚ)) / (((a.length + b.length : Nat) : ℚ))

/-- Embedding of `calculate_similarity` from `merge.py`: `0.0` when
either raw input is empty (Python truthiness), otherwise the
`SequenceMatcher` ratio of the two normalized strings. -/
def calculateSimilarity (str1 str2 : String) : ℚ :=
  if str1 = "" ∨ str2 = "" then 0
  else matcherScore (normalizeText str1).data (normalizeText str2).data

-- temporary sanity checks (values cross-checked against difflib)
example : matcherM "ab".data "ba".data = 1 := rfl
example : matcherM "abc".data "abc".data = 3 := rfl
example : matcherM "zzzz".data "ab cd".data = 0 := rfl
example : matcherM "abcd".data "bcda".data = 3 := rfl
example : matcherScore [] [] = 1 := rfl
example : normalizeText "  A \x7bB\x7d  C " = "a b c" := rfl

/-! ## Bibliographic records -/

/-- One parsed BibTeX entry, as produced by `parse_bib_file`: the entry
type, the citation key, the field map (field names lower-cased by the
parser) and the raw source block. -/
structure Entry where
  type : String
  key : String
  fields : List (String × String)
  raw : String
deriving DecidableEq

/-- Model of `entry['fields'].get(name, '')`. -/
def Entry.getF (e : Entry) (name : String) : String :=
  (e.fields.lookup name).getD ""

/-- Model of `name in entry['fields']` (key presence, value ignored). -/
def Entry.hasF (e : Entry) (name : String) : Bool :=
  (e.fields.lookup name).isSome

/-- Model of Python `a or b` on strings: `b` when `a` is falsy (empty). -/
def pyOrStr (a b : String) : String := if a = "" then b else a

/-- Embedding of `get_venue_field` from `merge.py`. -/
def getVenueField (entry : Entry) : String :=
  let entryType := pyLowerStr entry.type
  if entryType = "article" then entry.getF "journal"
  else if entryType = "inproceedings" ∨ entryType = "conference" then entry.getF "booktitle"
  else if entryType = "book" then pyOrStr (entry.getF "publisher") (entry.getF "series")
  else if entryType = "incollection" then entry.getF "booktitle"
  else if entryType = "misc" ∨ entryType = "preprint" then
    pyOrStr (pyOrStr (entry.getF "journal") (entry.getF "howpublished")) (entry.getF "note")
  else if entryType = "thesis" ∨ entryType = "phdthesis" ∨ entryType = "mastersthesis" then
    entry.getF "school"
  else if entryType = "techreport" then entry.getF "institution"
  else pyOrStr (pyOrStr (entry.getF "journal") (entry.getF "booktitle")) (entry.getF "publisher")

/-- Definition following the spec's words (§4.2a venue table), for the
refinement claim C8: per-type venue field priority, unknown/missing
fields resolving to the empty string. -/
def specVenueField (entry : Entry) : String :=
  let entryType := pyLowerStr entry.type
  if entryType = "article" then entry.getF "journal"
  else if entryType = "inproceedings" ∨ entryType = "conference" then entry.getF "booktitle"
  else if entryType = "book" then pyOrStr (entry.getF "publisher") (entry.getF "series")
  else if entryType = "incollection" then entry.getF "booktitle"
  else if entryType = "misc" ∨ entryType = "preprint" then
    pyOrStr (pyOrStr (entry.getF "journal") (entry.getF "howpublished")) (entry.getF "note")
  else if entryType = "thesis" ∨ entryType = "phdthesis" ∨ entryType = "mastersthesis" then
    entry.getF "school"
  else if entryType = "techreport" then entry.getF "institution"
  else pyOrStr (pyOrStr (entry.getF "journal") (entry.getF "booktitle")) (entry.getF "publisher")

/-! ## Book / incollection relationship -/

/-- Model of Python `str.split()` (split on whitespace runs, no empty
pieces), via an accumulator for the current word. -/
def pySplitAux : List Char → List Char → List (List Char)
  | acc, [] => if acc = [] then [] else [acc.reverse]
  | acc, c :: cs =>
    if pyIsSpace c then
      if acc = [] then pySplitAux [] cs else acc.reverse :: pySplitAux [] cs
    else pySplitAux (c :: acc) cs

def pySplit (l : List Char) : List (List Char) := pySplitAux [] l

/-- Model of Python `needle in hay` on strings: substring containment. -/
def strContains (hay needle : List Char) : Bool :=
  (List.range (hay.length + 1)).any (fun i => needle.isPrefixOf (hay.drop i))

/-- The author similarity computed by `is_incollection_of_book`:
incollection author against book author, falling back to book editor. -/
def icAuthorSim (incollection book : Entry) : ℚ :=
  calculateSimilarity (incollection.getF "author")
    (pyOrStr (book.getF "author") (book.getF "editor"))

/-- The `same_year` flag of `is_incollection_of_book`: equality of the
two year strings, `False` when either is empty. -/
def icSameYear (incollection book : Entry) : Bool :=
  let icYear := incollection.getF "year"
  let bookYear := book.getF "year"
  if icYear ≠ "" ∧ bookYear ≠ "" then icYear = bookYear else false

/-- The significant words (length > 3) of the book's normalized title. -/
def bookTitleWords (book : Entry) : List (List Char) :=
  (pySplit (normalizeText (book.getF "title")).data).filter (fun w => w.length > 3)

/-- How many significant book-title words occur (as substrings) in the
incollection's normalized booktitle. -/
def icMatchingWords (incollection book : Entry) : Nat :=
  ((bookTitleWords book).filter
    (fun w => strContains (normalizeText (incollection.getF "booktitle")).data w)).length

/-- Embedding of `is_incollection_of_book` from `merge.py`. -/
def isIncollectionOfBook (incollection book : Entry) : Bool :=
  if pyLowerStr incollection.type ≠ "incollection" ∨ pyLowerStr book.type ≠ "book" then
    false
  else if icAuthorSim incollection book > 0.7 ∧ icSameYear incollection book then
    true
  else
    let icBooktitle := normalizeText (incollection.getF "booktitle")
    let bookTitle := normalizeText (book.getF "title")
    if icBooktitle = "" ∨ bookTitle = "" then false
    else if (bookTitleWords book).length > 0 ∧
        icMatchingWords incollection book ≥ min 2 (bookTitleWords book).length then
      true
    else
      decide (calculateSimilarity icBooktitle bookTitle > 0.8)

/-! ## Duplicate decision -/

/-- The unweighted average of author, title and venue similarity
computed by `are_entries_duplicate`. -/
def duplicateScore (entry1 entry2 : Entry) : ℚ :=
  let authorSim := calculateSimilarity (entry1.getF "author") (entry2.getF "author")
  let titleSim := calculateSimilarity (entry1.getF "title") (entry2.getF "title")
  let venueSim := calculateSimilarity (getVenueField entry1) (getVenueField entry2)
  (authorSim + titleSim + venueSim) / 3

/-- Embedding of `are_entries_duplicate` from `merge.py`: the
book/incollection special case short-circuits to `true`; otherwise (also
when the special-case type test matched but the relation did not hold)
the decision is `avg_similarity ≥ threshold`. -/
def areEntriesDuplicate (entry1 entry2 : Entry) (threshold : ℚ) : Bool :=
  if pyLowerStr entry1.type = "book" ∧ pyLowerStr entry2.type = "incollection" then
    if isIncollectionOfBook entry2 entry1 then true
    else decide (duplicateScore entry1 entry2 ≥ threshold)
  else if pyLowerStr entry1.type = "incollection" ∧ pyLowerStr entry2.type = "book" then
    if isIncollectionOfBook entry1 entry2 then true
    else decide (duplicateScore entry1 entry2 ≥ threshold)
  else decide (duplicateScore entry1 entry2 ≥ threshold)

/-! ## Configuration constants -/

/-- The `MANUAL_DUPLICATES` table of `merge.py` (duplicate key mapped to
the key that is kept instead). -/
def MANUAL_DUPLICATES : List (String × String) :=
  [("Son2025TTCT2C", "nl.trung2022:book:TWR")]

/-- The `MIN_YEAR` constant of `merge.py`. -/
def MIN_YEAR : Int := 2017

/-! ## Python int() parsing -/

def pyDigit (c : Char) : Bool := '0' ≤ c ∧ c ≤ '9'

/-- Validity of the tail of a digit group for Python `int()`: single
underscores are allowed, but only between digits. -/
def pyDigitsTail : List Char → Bool
  | [] => true
  | c :: rest =>
    if c = '_' then
      (match rest with
       | [] => false
       | d :: _ => pyDigit d) && pyDigitsTail rest
    else pyDigit c && pyDigitsTail rest

/-- A nonempty digit group starting with a digit, underscores only
between digits. -/
def pyDigitsOk : List Char → Bool
  | [] => false
  | c :: rest => pyDigit c ∧ pyDigitsTail rest

/-- Numeric value of a digit group (underscores skipped). -/
def pyDigitsVal (l : List Char) : Nat :=
  (l.filter pyDigit).foldl (fun n c => 10 * n + (c.toNat - 48)) 0

/-- Model of Python `int(s)` for base ten (ASCII model: ASCII digits and
whitespace only): surrounding whitespace stripped, optional single sign,
then a digit group; `none` models `ValueError`. -/
def pyInt (s : String) : Option Int :=
  match stripWs s.data with
  | '+' :: rest => if pyDigitsOk rest then some (pyDigitsVal rest) else none
  | '-' :: rest => if pyDigitsOk rest then some (-(pyDigitsVal rest : Int)) else none
  | rest => if pyDigitsOk rest then some (pyDigitsVal rest) else none

/-! ## Priority ordering -/

/-- Embedding of `entry_priority` from `merge_bib_files`: books first
(0), incollections last (2), everything else in between (1). -/
def entry_priority (entry : Entry) : Nat :=
  if pyLowerStr entry.type = "book" then 0
  else if pyLowerStr entry.type = "incollection" then 2
  else 1

/-- Model of `all_entries.sort(key=entry_priority)`.  Python's
`list.sort` is a guaranteed-stable sort by the key function; Lean's
`List.mergeSort` with the non-strict key comparison is stable in the
same sense, so the two agree. -/
def sortEntries (allEntries : List Entry) : List Entry :=
  allEntries.mergeSort (fun e1 e2 => decide (entry_priority e1 ≤ entry_priority e2))

/-! ## Per-entry decision of the merge loop -/

/-- The reasons for which the filter stage drops an entry. -/
inductive DropReason
  | noYear
  | incompleteMisc
  | invalidYear
  | tooOld
deriving DecidableEq

/-- Outcome of the body of the main loop of `merge_bib_files` for one
entry, given the accepted set built so far. -/
inductive Outcome
  | dropped (r : DropReason)
  | manualDup
  | simDup (matchedKey : String)
  | accepted
deriving DecidableEq

/-- The `has_venue` flag of the incomplete-`@misc` filter: some of
journal / booktitle / publisher / howpublished present with a truthy
(non-empty) value. -/
def miscHasVenue (entry : Entry) : Bool :=
  entry.getF "journal" ≠ "" ∨ entry.getF "booktitle" ≠ "" ∨
    entry.getF "publisher" ≠ "" ∨ entry.getF "howpublished" ≠ ""

/-- The incomplete-`@misc` filter condition of `merge_bib_files`:
type `misc`, no venue, no DOI, and a `citation` or `note` key present. -/
def miscIncomplete (entry : Entry) : Bool :=
  pyLowerStr entry.type = "misc" ∧ ¬ miscHasVenue entry ∧
    ¬ (entry.getF "doi" ≠ "") ∧ (entry.hasF "citation" ∨ entry.hasF "note")

/-- Embedding of the body of the main loop of `merge_bib_files`: the
no-year filter, the incomplete-`@misc` filter, the `int(year)` parse
(`ValueError` giving the invalid-year drop), the `MIN_YEAR` cutoff, the
manual-duplicate table, and finally the linear scan of the accepted set
stopping at the first similarity match. -/
def classifyEntry (threshold : ℚ) (uniqueEntries : List Entry) (entry : Entry) : Outcome :=
  let yearStr := entry.getF "year"
  if yearStr = "" then .dropped .noYear
  else if miscIncomplete entry then .dropped .incompleteMisc
  else
    match pyInt yearStr with
    | none => .dropped .invalidYear
    | some year =>
      if year < MIN_YEAR then .dropped .tooOld
      else if (MANUAL_DUPLICATES.lookup entry.key).isSome then .manualDup
      else
        match uniqueEntries.find? (fun u => areEntriesDuplicate entry u threshold) with
        | some u => .simDup u.key
        | none => .accepted

/-- Definition following the spec's words (§4.3 step 3 and claim C3),
for the refinement claim C3: the four exclusion rules tried in order,
first match giving the drop reason, independent of the accepted set. -/
def specFilterReason (entry : Entry) : Option DropReason :=
  if entry.getF "year" = "" then some .noYear
  else if miscIncomplete entry then some .incompleteMisc
  else if (pyInt (entry.getF "year")).isNone then some .invalidYear
  else if (match pyInt (entry.getF "year") with
           | some year => decide (year < MIN_YEAR)
           | none => false) then some .tooOld
  else none

/-! ## The merge fold -/

/-- The mutable counters and accepted set of the main loop of
`merge_bib_files`.  `filteredNoYear` counts both entries with no year
field and entries whose year fails to parse, exactly as in the source. -/
structure MergeState where
  uniqueEntries : List Entry
  duplicateCount : Nat
  filteredCount : Nat
  filteredIncomplete : Nat
  filteredNoYear : Nat
deriving DecidableEq

def initMergeState : MergeState := ⟨[], 0, 0, 0, 0⟩

/-- One iteration of the main loop of `merge_bib_files`. -/
def processEntry (threshold : ℚ) (s : MergeState) (entry : Entry) : MergeState :=
  match classifyEntry threshold s.uniqueEntries entry with
  | .dropped .noYear => { s with filteredNoYear := s.filteredNoYear + 1 }
  | .dropped .incompleteMisc => { s with filteredIncomplete := s.filteredIncomplete + 1 }
  | .dropped .invalidYear => { s with filteredNoYear := s.filteredNoYear + 1 }
  | .dropped .tooOld => { s with filteredCount := s.filteredCount + 1 }
  | .manualDup => { s with duplicateCount := s.duplicateCount + 1 }
  | .simDup _ => { s with duplicateCount := s.duplicateCount + 1 }
  | .accepted => { s with uniqueEntries := s.uniqueEntries ++ [entry] }

/-- The whole dedup loop over the priority-sorted entry sequence. -/
def mergeEntries (threshold : ℚ) (allEntries : List Entry) : MergeState :=
  allEntries.foldl (processEntry threshold) initMergeState

/-! ## File-level flow of merge_bib_files -/

/-- One file of the input directory, represented by its name and by the
entry sequence `parse_bib_file` extracts from its text (the regex
extractor itself is not under verification; its output shape is). -/
structure BibFile where
  name : String
  entries : List Entry
deriving DecidableEq

/-- Lexicographic comparison of strings by code point, modelling the
ordering Python's `sorted` uses on the `.bib` paths. -/
def lexLe : List Char → List Char → Bool
  | [], _ => true
  | _ :: _, [] => false
  | c :: cs, d :: ds => if c = d then lexLe cs ds else decide (c < d)

/-- Whether a file is picked up by `bibs_path.glob('*.bib')`. -/
def isBibFile (f : BibFile) : Bool := ['.', 'b', 'i', 'b'].isSuffixOf f.name.data

/-- The data written to the output file: the summary counters of the
header block and the accepted entries (whose `raw` text is emitted). -/
structure MergeOutput where
  uniqueEntries : List Entry
  duplicateCount : Nat
  filteredCount : Nat
  filteredIncomplete : Nat
  filteredNoYear : Nat
  totalCount : Nat
deriving DecidableEq

/-- Embedding of `merge_bib_files` over an abstract directory state:
`none` models a missing input directory; `some files` the directory
listing.  The result is `none` exactly when the function returns before
opening the output file. -/
def mergeBibFiles (dir : Option (List BibFile)) (threshold : ℚ) : Option MergeOutput :=
  match dir with
  | none => none
  | some files =>
    let bibFiles := (files.filter isBibFile).mergeSort
      (fun f g => lexLe f.name.data g.name.data)
    if bibFiles = [] then none
    else
      let allEntries := (bibFiles.map (·.entries)).flatten
      let totalCount := allEntries.length
      let s := mergeEntries threshold (sortEntries allEntries)
      some ⟨s.uniqueEntries, s.duplicateCount, s.filteredCount,
        s.filteredIncomplete, s.filteredNoYear, totalCount⟩

/-! ## Helper lemmas -/

/-- A list that is pairwise sorted by a three-valued priority key equals
the concatenation of its priority-0, priority-1 and priority-2 parts. -/
theorem pairwise_filter_partition {α : Type} (p : α → Nat) (hp : ∀ e, p e ≤ 2) :
    ∀ l : List α, l.Pairwise (fun a b => p a ≤ p b) →
      l = l.filter (fun e => decide (p e = 0)) ++ l.filter (fun e => decide (p e = 1)) ++
        l.filter (fun e => decide (p e = 2)) := by
  intro l hl
  induction l with
  | nil => simp
  | cons a t ih =>
    obtain ⟨ha, hrest⟩ := List.pairwise_cons.mp hl
    have ht := ih hrest
    rcases Nat.lt_or_ge (p a) 1 with h0 | h12
    · have h0 : p a = 0 := by omega
      rw [List.filter_cons_of_pos (by simp [h0]), List.filter_cons_of_neg (by simp [h0]),
        List.filter_cons_of_neg (by simp [h0]), List.cons_append, List.cons_append]
      exact congrArg (List.cons a) ht
    · rcases Nat.lt_or_ge (p a) 2 with h1 | h2
      · have h1 : p a = 1 := by omega
        have hf0 : t.filter (fun e => decide (p e = 0)) = [] := by
          rw [List.filter_eq_nil_iff]
          intro b hb
          have hab := ha b hb
          simp only [decide_eq_true_eq]
          omega
        rw [hf0] at ht
        simp only [List.nil_append] at ht
        rw [List.filter_cons_of_neg (by simp [h1]), List.filter_cons_of_pos (by simp [h1]),
          List.filter_cons_of_neg (by simp [h1]), hf0, List.nil_append, List.cons_append]
        exact congrArg (List.cons a) ht
      · have h2 : p a = 2 := by
          have := hp a
          omega
        have hf0 : t.filter (fun e => decide (p e = 0)) = [] := by
          rw [List.filter_eq_nil_iff]
          intro b hb
          have hab := ha b hb
          simp only [decide_eq_true_eq]
          omega
        have hf1 : t.filter (fun e => decide (p e = 1)) = [] := by
          rw [List.filter_eq_nil_iff]
          intro b hb
          have hab := ha b hb
          simp only [decide_eq_true_eq]
          omega
        rw [hf0, hf1] at ht
        simp only [List.nil_append] at ht
        rw [List.filter_cons_of_neg (by simp [h2]), List.filter_cons_of_neg (by simp [h2]),
          List.filter_cons_of_pos (by simp [h2]), hf0, hf1]
        simp only [List.nil_append]
        exact congrArg (List.cons a) ht

/-- Stability of `mergeSort`: filtering by a predicate whose holders are
pairwise `le`-comparable commutes with sorting. -/
theorem filter_mergeSort_eq {α : Type} (le : α → α → Bool)
    (htrans : ∀ a b c, le a b → le b c → le a c)
    (htotal : ∀ a b, le a b || le b a)
    (q : α → Bool) (hq : ∀ a b, q a → q b → le a b) (l : List α) :
    (l.mergeSort le).filter q = l.filter q := by
  have hpair : (l.filter q).Pairwise (fun a b => le a b = true) := by
    apply List.pairwise_of_forall_mem_list
    intro a hain b hbin
    exact hq a b (List.of_mem_filter hain) (List.of_mem_filter hbin)
  have hsub : List.Sublist (l.filter q) (l.mergeSort le) :=
    List.sublist_mergeSort htrans htotal hpair (List.filter_sublist l)
  have hsub2 : List.Sublist (l.filter q) ((l.mergeSort le).filter q) := by
    have hs := hsub.filter q
    have hqq : (fun a : α => q a && q a) = q := by
      funext a
      exact Bool.and_self (q a)
    rwa [List.filter_filter, hqq] at hs
  have hlen : ((l.mergeSort le).filter q).length = (l.filter q).length :=
    ((List.mergeSort_perm l le).filter q).length_eq
  exact (hsub2.eq_of_length hlen.symm).symm

/-- An entry has priority 0 exactly when its lower-cased type is book. -/
theorem priorityZeroIff (e : Entry) :
    decide (entry_priority e = 0) = decide (pyLowerStr e.type = "book") := by
  unfold entry_priority
  split_ifs with hb hi
  · simp [hb]
  · simp [hb]
  · simp [hb]

/-- An entry has priority 1 exactly when it is neither book nor incollection. -/
theorem priorityOneIff (e : Entry) :
    decide (entry_priority e = 1) =
      decide (¬ pyLowerStr e.type = "book" ∧ ¬ pyLowerStr e.type = "incollection") := by
  unfold entry_priority
  split_ifs with hb hi
  · simp [hb]
  · simp [hb, hi]
  · simp [hb, hi]

/-- An entry has priority 2 exactly when its lower-cased type is incollection. -/
theorem priorityTwoIff (e : Entry) :
    decide (entry_priority e = 2) = decide (pyLowerStr e.type = "incollection") := by
  unfold entry_priority
  split_ifs with hb hi
  · simp [hb]
  · simp [hi]
  · simp [hi]

/-- Each loop iteration of `merge_bib_files` accounts for exactly one
entry in exactly one of the five counters (the accepted list counted by
its length). -/
theorem mergeFoldCounts (threshold : ℚ) :
    ∀ (es : List Entry) (s : MergeState),
      (es.foldl (processEntry threshold) s).uniqueEntries.length +
        (es.foldl (processEntry threshold) s).duplicateCount +
        (es.foldl (processEntry threshold) s).filteredCount +
        (es.foldl (processEntry threshold) s).filteredIncomplete +
        (es.foldl (processEntry threshold) s).filteredNoYear =
      s.uniqueEntries.length + s.duplicateCount + s.filteredCount +
        s.filteredIncomplete + s.filteredNoYear + es.length := by
  intro es
  induction es with
  | nil =>
    intro s
    simp
  | cons e rest ih =>
    intro s
    rw [List.foldl_cons, ih]
    cases hc : classifyEntry threshold s.uniqueEntries e with
    | dropped r => cases r <;> simp [processEntry, hc] <;> omega
    | manualDup =>
      simp [processEntry, hc]
      omega
    | simDup k =>
      simp [processEntry, hc]
      omega
    | accepted =>
      simp [processEntry, hc]
      omega

/-! ## Claim C1 -/

/-- C1: for every pair of records and every threshold, the duplicate
decision classifies them as duplicates exactly when the
book/collection-chapter structural relationship holds in one of the two
directions (short-circuiting regardless of other fields), or the
unweighted average of author, title and venue similarity — all three
entering the average — is at least the threshold. -/
theorem duplicate_decision_iff_structural_or_threshold
    (entry1 entry2 : Entry) (threshold : ℚ) :
    areEntriesDuplicate entry1 entry2 threshold = true ↔
      ((pyLowerStr entry1.type = "book" ∧ pyLowerStr entry2.type = "incollection" ∧
          isIncollectionOfBook entry2 entry1 = true) ∨
       (pyLowerStr entry1.type = "incollection" ∧ pyLowerStr entry2.type = "book" ∧
          isIncollectionOfBook entry1 entry2 = true) ∨
       duplicateScore entry1 entry2 ≥ threshold) := by
  unfold areEntriesDuplicate
  split_ifs with h1 h2 h3 h4 <;> simp_all
  tauto

def dupWitnessA : Entry :=
  ⟨"article", "wa", [("year", "2020"), ("author", "ab"), ("title", "ab"), ("journal", "ab")], ""⟩

def dupWitnessB : Entry :=
  ⟨"article", "wb", [("year", "2021"), ("author", "ab"), ("title", "ab"), ("journal", "ab")], ""⟩

/-- Witness for C1 at a concrete pair of identical-field records. -/
theorem duplicate_decision_iff_structural_or_threshold_witness :
    areEntriesDuplicate dupWitnessA dupWitnessB 0.7 = true := by
  apply (duplicate_decision_iff_structural_or_threshold dupWitnessA dupWitnessB 0.7).mpr
  refine Or.inr (Or.inr ?_)
  have hs : duplicateScore dupWitnessA dupWitnessB =
      (2 * ((2 : ℕ) : ℚ) / ((4 : ℕ) : ℚ) + 2 * ((2 : ℕ) : ℚ) / ((4 : ℕ) : ℚ) +
        2 * ((2 : ℕ) : ℚ) / ((4 : ℕ) : ℚ)) / 3 := rfl
  rw [hs]
  norm_num

/-! ## Claim C2 -/

def cexBook : Entry := ⟨"book", "bk0", [("title", "ab cd"), ("year", "2020")], ""⟩

def cexChapter : Entry :=
  ⟨"incollection", "ic0", [("booktitle", "zzzz"), ("year", "2020")], ""⟩

/-- C2 counterexample: a book whose normalized title "ab cd" is non-empty
but yields no word longer than 3 characters, and a chapter with
non-empty normalized venue field "zzzz".  The first rule does not
decide, the venue field contains at least `min(2, word_count) = min(2,0)
= 0` of the (zero) significant words, yet the code classifies the pair
as unrelated, because the source additionally requires
`len(book_words) > 0` and the 0.8-similarity fallback fails. -/
theorem incollection_keyword_rule_counterexample :
    pyLowerStr cexChapter.type = "incollection" ∧ pyLowerStr cexBook.type = "book" ∧
    normalizeText (cexBook.getF "title") ≠ "" ∧
    normalizeText (cexChapter.getF "booktitle") ≠ "" ∧
    ¬ (icAuthorSim cexChapter cexBook > 0.7 ∧ icSameYear cexChapter cexBook = true) ∧
    icMatchingWords cexChapter cexBook ≥ min 2 (bookTitleWords cexBook).length ∧
    isIncollectionOfBook cexChapter cexBook = false := by
  have hfirst : ¬ (icAuthorSim cexChapter cexBook > 0.7 ∧ icSameYear cexChapter cexBook = true) := by
    rintro ⟨hgt, -⟩
    rw [show icAuthorSim cexChapter cexBook = 0 from rfl] at hgt
    norm_num at hgt
  refine ⟨rfl, rfl, by decide, by decide, hfirst, by decide, ?_⟩
  have hsim : calculateSimilarity (normalizeText (cexChapter.getF "booktitle"))
      (normalizeText (cexBook.getF "title")) = 0 := by
    rw [show calculateSimilarity (normalizeText (cexChapter.getF "booktitle"))
        (normalizeText (cexBook.getF "title")) = 2 * ((0 : ℕ) : ℚ) / (((9 : ℕ) : ℚ)) from rfl]
    norm_num
  simp only [isIncollectionOfBook]
  rw [if_neg (by decide), if_neg hfirst, if_neg (by decide), if_neg (by decide)]
  simp only [hsim, decide_eq_false_iff_not]
  norm_num

/-- C2 (amended): the second rule additionally requires at least one
significant word, i.e. for every incollection/book pair with both
normalized fields non-empty, when the first rule did not decide, if the
book title has at least one word longer than 3 characters and the
chapter's normalized venue field contains at least `min(2, word_count)`
of those words, the records are classified as related. -/
theorem incollection_keyword_rule_amended (incollection book : Entry)
    (htype1 : pyLowerStr incollection.type = "incollection")
    (htype2 : pyLowerStr book.type = "book")
    (hbt : normalizeText (incollection.getF "booktitle") ≠ "")
    (htt : normalizeText (book.getF "title") ≠ "")
    (hfirst : ¬ (icAuthorSim incollection book > 0.7 ∧ icSameYear incollection book = true))
    (hwords : 0 < (bookTitleWords book).length)
    (hmatch : icMatchingWords incollection book ≥ min 2 (bookTitleWords book).length) :
    isIncollectionOfBook incollection book = true := by
  simp only [isIncollectionOfBook]
  rw [if_neg (by simp [htype1, htype2]), if_neg hfirst, if_neg (by simp [hbt, htt]),
    if_pos ⟨hwords, hmatch⟩]

def kwBook : Entry := ⟨"book", "bw", [("title", "analysis methods"), ("year", "2021")], ""⟩

def kwChapter : Entry :=
  ⟨"incollection", "iw", [("booktitle", "analysis of methods"), ("year", "2021")], ""⟩

/-- Witness for the amended C2 at a concrete pair sharing two
significant title words. -/
theorem incollection_keyword_rule_amended_witness :
    isIncollectionOfBook kwChapter kwBook = true := by
  apply incollection_keyword_rule_amended <;> first
  | decide
  | (rintro ⟨hgt, -⟩
     rw [show icAuthorSim kwChapter kwBook = 0 from rfl] at hgt
     norm_num at hgt)

/-! ## Claim C3 -/

/-- C3: an entry is dropped by the loop of `merge_bib_files` with a
given reason exactly when the spec's ordered first-match filter rules
(no-year, incomplete-misc, invalid-year, too-old) produce that reason;
in particular the decision does not depend on the accepted set, so a
dropped record is never compared for similarity. -/
theorem exclusion_filters_first_match (threshold : ℚ) (uniqueEntries : List Entry)
    (entry : Entry) (r : DropReason) :
    classifyEntry threshold uniqueEntries entry = .dropped r ↔
      specFilterReason entry = some r := by
  simp only [classifyEntry, specFilterReason]
  cases hp : pyInt (entry.getF "year") with
  | none => split_ifs <;> simp_all
  | some year =>
    cases hf : uniqueEntries.find? (fun u => areEntriesDuplicate entry u threshold) with
    | none =>
      split_ifs <;> simp_all <;> (try (split <;> simp_all)) <;> omega
    | some u =>
      split_ifs <;> simp_all <;> (try (split <;> simp_all)) <;> omega

/-- Witness for C3 at a concrete record without a year field. -/
theorem exclusion_filters_first_match_witness :
    classifyEntry 0.7 [] ⟨"article", "w3", [("title", "t")], ""⟩ = .dropped .noYear :=
  (exclusion_filters_first_match 0.7 [] ⟨"article", "w3", [("title", "t")], ""⟩ .noYear).mpr rfl

/-! ## Claim C4 -/

/-- C4: a record surviving the exclusion filters whose key appears in
the manual override table is classified manual-duplicate whatever the
accepted set holds — no similarity comparison can affect it — and the
accepted set is left unchanged by processing it. -/
theorem manual_override_always_drops (threshold : ℚ) (uniqueEntries : List Entry)
    (s : MergeState) (entry : Entry)
    (hsurv : specFilterReason entry = none)
    (hkey : (MANUAL_DUPLICATES.lookup entry.key).isSome = true) :
    classifyEntry threshold uniqueEntries entry = .manualDup ∧
      (processEntry threshold s entry).uniqueEntries = s.uniqueEntries := by
  have hcls : ∀ uq : List Entry, classifyEntry threshold uq entry = .manualDup := by
    intro uq
    simp only [specFilterReason] at hsurv
    split_ifs at hsurv with h1 h2 h3 h4
    cases hpi : pyInt (entry.getF "year") with
    | none =>
      rw [hpi] at h3
      simp at h3
    | some year =>
      rw [hpi] at h4
      simp only [decide_eq_true_eq] at h4
      simp only [classifyEntry, if_neg h1, if_neg h2, hpi]
      rw [if_neg h4, if_pos hkey]
  refine ⟨hcls uniqueEntries, ?_⟩
  simp only [processEntry, hcls s.uniqueEntries]

def overrideEntry : Entry := ⟨"incollection", "Son2025TTCT2C", [("year", "2025")], ""⟩

def overrideOther : Entry := ⟨"article", "vw", [("year", "2020"), ("title", "q")], ""⟩

/-- Witness for C4: the manually-listed key is dropped even against a
non-empty accepted set it has similarity 0 to. -/
theorem manual_override_always_drops_witness :
    classifyEntry 0.7 [overrideOther] overrideEntry = .manualDup ∧
      (processEntry 0.7 ⟨[overrideOther], 0, 0, 0, 0⟩ overrideEntry).uniqueEntries =
        [overrideOther] :=
  manual_override_always_drops 0.7 [overrideOther] ⟨[overrideOther], 0, 0, 0, 0⟩
    overrideEntry rfl rfl

/-! ## Claim C5 -/

/-- C5: a surviving, non-overridden candidate is compared against the
accepted set in order: the first accepted record it matches marks it as
that record's duplicate regardless of what follows in the accepted set,
and a candidate matching no accepted record is classified accepted and
appended at the end of the accepted set. -/
theorem dedup_scan_first_match_or_append (threshold : ℚ) (entry : Entry)
    (uniqueEntries : List Entry)
    (hsurv : specFilterReason entry = none)
    (hman : (MANUAL_DUPLICATES.lookup entry.key).isSome = false) :
    (∀ pre u post, uniqueEntries = pre ++ u :: post →
        (∀ v ∈ pre, areEntriesDuplicate entry v threshold = false) →
        areEntriesDuplicate entry u threshold = true →
        classifyEntry threshold uniqueEntries entry = .simDup u.key) ∧
    ((∀ v ∈ uniqueEntries, areEntriesDuplicate entry v threshold = false) →
        classifyEntry threshold uniqueEntries entry = .accepted ∧
        ∀ s : MergeState, s.uniqueEntries = uniqueEntries →
          (processEntry threshold s entry).uniqueEntries = uniqueEntries ++ [entry]) := by
  simp only [specFilterReason] at hsurv
  split_ifs at hsurv with h1 h2 h3 h4
  have hcls : ∀ uq : List Entry, classifyEntry threshold uq entry =
      (match uq.find? (fun u => areEntriesDuplicate entry u threshold) with
       | some u => Outcome.simDup u.key
       | none => Outcome.accepted) := by
    intro uq
    cases hpi : pyInt (entry.getF "year") with
    | none =>
      rw [hpi] at h3
      simp at h3
    | some year =>
      rw [hpi] at h4
      simp only [decide_eq_true_eq] at h4
      simp only [classifyEntry, if_neg h1, if_neg h2, hpi]
      rw [if_neg h4, if_neg (by simp [hman])]
  constructor
  · rintro pre u post rfl hpre hu
    rw [hcls]
    have hfindpre : pre.find? (fun v => areEntriesDuplicate entry v threshold) = none := by
      simp only [List.find?_eq_none]
      intro x hx
      simp [hpre x hx]
    rw [List.find?_append, hfindpre, Option.none_or,
      List.find?_cons_of_pos _ (by simp [hu])]
  · intro hall
    have hfind : uniqueEntries.find? (fun v => areEntriesDuplicate entry v threshold) = none := by
      simp only [List.find?_eq_none]
      intro x hx
      simp [hall x hx]
    refine ⟨by rw [hcls, hfind], ?_⟩
    intro s hs
    simp only [processEntry, hs, hcls uniqueEntries, hfind]

def scanCandidate : Entry :=
  ⟨"article", "ka", [("year", "2020"), ("author", "ab"), ("title", "ab"), ("journal", "ab")], ""⟩

def scanAccepted : Entry :=
  ⟨"article", "kb", [("year", "2021"), ("author", "ab"), ("title", "ab"), ("journal", "ab")], ""⟩

/-- Witness for C5: a candidate matching the head of the accepted set is
marked as that record's duplicate. -/
theorem dedup_scan_first_match_or_append_witness :
    classifyEntry 0.7 [scanAccepted] scanCandidate = .simDup "kb" := by
  have hdup : areEntriesDuplicate scanCandidate scanAccepted 0.7 = true := by
    have hs : duplicateScore scanCandidate scanAccepted =
        (2 * ((2 : ℕ) : ℚ) / ((4 : ℕ) : ℚ) + 2 * ((2 : ℕ) : ℚ) / ((4 : ℕ) : ℚ) +
          2 * ((2 : ℕ) : ℚ) / ((4 : ℕ) : ℚ)) / 3 := rfl
    simp only [areEntriesDuplicate]
    rw [if_neg (by decide), if_neg (by decide)]
    simp only [hs, decide_eq_true_eq]
    norm_num
  exact (dedup_scan_first_match_or_append 0.7 scanCandidate [scanAccepted] rfl rfl).1
    [] scanAccepted [] rfl (by simp) hdup

/-! ## Claim C6 -/

/-- C6: the priority reorder is the stable partition of the combined
sequence: all book-typed records first, all collection-chapter-typed
records last, everything else in between, each class keeping its
original relative order (the three filters preserve it). -/
theorem priority_reorder_stable_partition (allEntries : List Entry) :
    sortEntries allEntries =
      allEntries.filter (fun e => decide (pyLowerStr e.type = "book")) ++
      allEntries.filter (fun e =>
        decide (¬ pyLowerStr e.type = "book" ∧ ¬ pyLowerStr e.type = "incollection")) ++
      allEntries.filter (fun e => decide (pyLowerStr e.type = "incollection")) := by
  have htrans : ∀ a b c : Entry,
      (fun e1 e2 => decide (entry_priority e1 ≤ entry_priority e2)) a b →
      (fun e1 e2 => decide (entry_priority e1 ≤ entry_priority e2)) b c →
      (fun e1 e2 => decide (entry_priority e1 ≤ entry_priority e2)) a c := by
    intro a b c h1 h2
    simp only [decide_eq_true_eq] at h1 h2 ⊢
    omega
  have htotal : ∀ a b : Entry,
      ((fun e1 e2 => decide (entry_priority e1 ≤ entry_priority e2)) a b ||
       (fun e1 e2 => decide (entry_priority e1 ≤ entry_priority e2)) b a) := by
    intro a b
    simp only [Bool.or_eq_true, decide_eq_true_eq]
    omega
  have hp : ∀ e : Entry, entry_priority e ≤ 2 := by
    intro e
    unfold entry_priority
    split_ifs <;> omega
  have hsorted : (sortEntries allEntries).Pairwise
      (fun a b => entry_priority a ≤ entry_priority b) := by
    have hs := List.sorted_mergeSort htrans htotal allEntries
    refine hs.imp ?_
    intro a b h
    simpa using h
  have hpart := pairwise_filter_partition entry_priority hp (sortEntries allEntries) hsorted
  have hf : ∀ k : Nat,
      (sortEntries allEntries).filter (fun e => decide (entry_priority e = k)) =
        allEntries.filter (fun e => decide (entry_priority e = k)) := by
    intro k
    apply filter_mergeSort_eq _ htrans htotal
    intro a b ha hb
    simp only [decide_eq_true_eq] at ha hb ⊢
    omega
  rw [hpart, hf 0, hf 1, hf 2,
    List.filter_congr (fun e _ => priorityZeroIff e),
    List.filter_congr (fun e _ => priorityOneIff e),
    List.filter_congr (fun e _ => priorityTwoIff e)]

/-! ## Claim C7 -/

/-- C7 counterexample: the input "\x7b" is non-empty but normalizes to
the empty string; the similarity of two such inputs is 1, not 0, because
the emptiness guard of `calculate_similarity` tests the raw inputs and
difflib rates two empty sequences as a perfect match. -/
theorem similarity_post_normalization_empty_counterexample :
    normalizeText "\x7b" = "" ∧ calculateSimilarity "\x7b" "\x7b" = 1 := ⟨rfl, rfl⟩

/-- C7 (amended): the similarity is exactly 0 whenever either raw input
is empty — in particular for two empty venue strings — but inputs that
become empty only after normalization are not guarded. -/
theorem similarity_raw_empty_zero (str1 str2 : String) (h : str1 = "" ∨ str2 = "") :
    calculateSimilarity str1 str2 = 0 := by
  unfold calculateSimilarity
  rw [if_pos h]

/-- Witness for the amended C7 at two empty venue strings. -/
theorem similarity_raw_empty_zero_witness : calculateSimilarity "" "" = 0 :=
  similarity_raw_empty_zero "" "" (Or.inl rfl)

/-! ## Claim C8 -/

/-- C8: venue resolution agrees with the spec's per-type priority table
(dispatch on the lower-cased type only, missing fields giving the empty
string), and an article-typed record always resolves to its journal
field — a present booktitle never leaks in. -/
theorem venue_resolution_type_dispatched (entry : Entry) :
    getVenueField entry = specVenueField entry ∧
      (pyLowerStr entry.type = "article" → getVenueField entry = entry.getF "journal") := by
  refine ⟨rfl, fun h => ?_⟩
  unfold getVenueField
  rw [if_pos h]

def articleNoJournal : Entry := ⟨"article", "w8", [("booktitle", "B"), ("year", "2020")], ""⟩

/-- Witness for C8: an article without journal resolves to the empty
venue although a booktitle is present. -/
theorem venue_resolution_type_dispatched_witness :
    getVenueField articleNoJournal = "" ∧ specVenueField articleNoJournal = "" := by
  have h := venue_resolution_type_dispatched articleNoJournal
  refine ⟨(h.2 rfl).trans rfl, ?_⟩
  rw [← h.1]
  exact (h.2 rfl).trans rfl

/-! ## Claim C9 -/

/-- C9: the merge writes no output exactly when the input directory is
missing or holds no .bib file; whenever output is produced the
configuration checks passed. -/
theorem missing_or_empty_input_no_output (dir : Option (List BibFile)) (threshold : ℚ) :
    mergeBibFiles dir threshold = none ↔
      dir = none ∨ ∃ files, dir = some files ∧ files.filter isBibFile = [] := by
  cases dir with
  | none => simp [mergeBibFiles]
  | some files =>
    have hnil : ((files.filter isBibFile).mergeSort
        (fun f g => lexLe f.name.data g.name.data) = []) ↔ files.filter isBibFile = [] := by
      rw [← List.length_eq_zero, List.length_mergeSort, List.length_eq_zero]
    simp only [mergeBibFiles]
    split_ifs with hb
    · constructor
      · intro _
        exact Or.inr ⟨files, rfl, hnil.mp hb⟩
      · intro _
        rfl
    · constructor
      · intro h
        exact absurd h (by simp)
      · rintro (h | ⟨fs, hfs, hnil2⟩)
        · exact absurd h (by simp)
        · obtain rfl : files = fs := Option.some.inj hfs
          exact absurd (hnil.mpr hnil2) hb

/-- Witness for C9: a missing directory produces no output. -/
theorem missing_or_empty_input_no_output_witness : mergeBibFiles none 0.7 = none :=
  (missing_or_empty_input_no_output none 0.7).mpr (Or.inl rfl)

/-! ## Claim C10 -/

/-- C10: whenever the merge writes output, the accepted count, the
duplicates-removed count (manual drops included), the too-old count, the
incomplete-misc count and the no/invalid-year count sum exactly to the
original total of parsed records. -/
theorem summary_counters_partition (dir : Option (List BibFile)) (threshold : ℚ)
    (out : MergeOutput) (h : mergeBibFiles dir threshold = some out) :
    out.uniqueEntries.length + out.duplicateCount + out.filteredCount +
      out.filteredIncomplete + out.filteredNoYear = out.totalCount := by
  cases dir with
  | none => simp [mergeBibFiles] at h
  | some files =>
    simp only [mergeBibFiles] at h
    split_ifs at h with hb
    obtain rfl := Option.some.inj h
    simp only [mergeEntries]
    rw [mergeFoldCounts threshold _ initMergeState]
    simp [initMergeState, sortEntries, Function.comp]

/-- Witness for C10 at a directory holding one .bib file with no
entries. -/
theorem summary_counters_partition_witness :
    (MergeOutput.mk [] 0 0 0 0 0).uniqueEntries.length +
      (MergeOutput.mk [] 0 0 0 0 0).duplicateCount +
      (MergeOutput.mk [] 0 0 0 0 0).filteredCount +
      (MergeOutput.mk [] 0 0 0 0 0).filteredIncomplete +
      (MergeOutput.mk [] 0 0 0 0 0).filteredNoYear =
      (MergeOutput.mk [] 0 0 0 0 0).totalCount :=
  summary_counters_partition (some [⟨"a.bib", []⟩]) 0.7 (MergeOutput.mk [] 0 0 0 0 0)
    (by simp [mergeBibFiles, List.mergeSort, sortEntries, mergeEntries, initMergeState,
      isBibFile, List.isSuffixOf])
